import Mathlib

/-!
Shallow embedding of datasets/videodataset_hdf5.py and verification of its
specification.

Conventions: Python ints are Nat/Int, Python lists are List, Python dicts
are ordered association lists, raised exceptions are Except errors, and
torch tensors are a shape together with a total indexing function.  The
annotation parser load_annotation_data lives in datasets/utils.py and is
not among the sources; its structured result is taken as the input
AnnotationData value.
-/

namespace VDH

/-- Raised Python exceptions relevant to this module. -/
inductive PyError where
  | closedRead        -- h5py object read after its owning file was closed
  | indexError        -- sequence index out of range, e.g. xs[0] on an empty list
  | typeError         -- torch.stack on non-tensors, iterating an int, ...
  | stackEmpty        -- torch.stack on an empty list
  | shapeMismatch     -- torch.stack on tensors of different shapes
  | permuteDimError   -- permute(1, 0, 2, 3) on a tensor that is not 4-D
  | zeroDivision      -- i % (n_videos // 5) with n_videos // 5 == 0
  | keyError (k : String)  -- class_to_idx[label] with label missing
  | unpackError       -- zip(* batch) unpacking an empty batch
  deriving DecidableEq

/-- Encoded frame bytes stored in one slot of the hdf5 "video" dataset. -/
structure Blob where
  val : Nat
  deriving DecidableEq

instance : Inhabited Blob := ⟨⟨0⟩⟩

/-- Decoded image, the result of Image.open(io.BytesIO(blob)). -/
structure Image where
  blob : Blob
  deriving DecidableEq

instance : Inhabited Image := ⟨⟨default⟩⟩

def decodeImage (b : Blob) : Image := ⟨b⟩

/-- Filesystem paths, as lists of components. -/
abbrev VPath := List String

/-- Contents of the filesystem seen by h5py: the "video" dataset of the
archive stored at each path, as the list of its frame blobs. -/
abbrev ArchiveStore := VPath → List Blob

/-- An h5py dataset handle: the slot contents plus whether the owning file
is still open.  Closing the file invalidates the handle, so len() and
indexing raise instead of reading. -/
structure Dset where
  contents : List Blob
  isOpen : Bool

def dsetLen (d : Dset) : Except PyError Nat :=
  if d.isOpen then .ok d.contents.length else .error .closedRead

def dsetGet (d : Dset) (i : Nat) : Except PyError Blob :=
  if d.isOpen then .ok (d.contents.getD i default) else .error .closedRead

/-- Loop of video_loader: for i in frame_indices, if i < len(video_data)
append the decoded blob, else return the images accumulated so far. -/
def videoLoop (video_data : Dset) : List Nat → Except PyError (List Image)
  | [] => .ok []
  | i :: rest => do
      let n ← dsetLen video_data
      if i < n then
        let b ← dsetGet video_data i
        let v ← videoLoop video_data rest
        .ok (decodeImage b :: v)
      else
        .ok []

/-- video_loader(video_file_path, frame_indices).  In the source the
with-block reads, in full: with h5py.File(video_file_path, "r") as f:
video_data = f["video"].  The block ends immediately after that binding,
so the file is already closed when the loop evaluates len(video_data) and
video_data[i]. -/
def video_loader (store : ArchiveStore) (video_file_path : VPath)
    (frame_indices : List Nat) : Except PyError (List Image) :=
  let f : Dset := { contents := store video_file_path, isOpen := true }
  let video_data : Dset := f
  -- with-block exit: the file is closed, invalidating the handle
  let video_data : Dset := { video_data with isOpen := false }
  videoLoop video_data frame_indices

/-- A torch tensor over element type a: a shape plus a total indexing
function on multi-indices. -/
structure Tensor (α : Type) where
  shape : List Nat
  data : List Nat → α

/-- torch.stack(ts, 0): requires a nonempty list of tensors of equal
shapes; the new leading axis indexes the list. -/
def torchStack (ts : List (Tensor Int)) : Except PyError (Tensor Int) :=
  match ts with
  | [] => .error .stackEmpty
  | t :: rest =>
    if rest.all (fun u => u.shape == t.shape) then
      .ok { shape := (t :: rest).length :: t.shape,
            data := fun idx =>
              match idx with
              | [] => 0
              | i :: is => ((t :: rest).getD i t).data is }
    else .error .shapeMismatch

/-- t.permute(1, 0, 2, 3): swap the first two axes of a 4-D tensor. -/
def permute1023 (t : Tensor Int) : Except PyError (Tensor Int) :=
  match t.shape with
  | [a, b, c, d] =>
    .ok { shape := [b, a, c, d],
          data := fun idx =>
            match idx with
            | [i1, i0, i2, i3] => t.data [i0, i1, i2, i3]
            | _ => 0 }
  | _ => .error .permuteDimError

/-- One entry of the flat dataset list built by make_dataset. -/
structure Sample where
  video : VPath
  segment : Nat × Nat
  frame_indices : List Nat
  video_id : String
  label : Int
  deriving DecidableEq

instance : Inhabited Sample := ⟨⟨[], (0, 0), [], "", 0⟩⟩

/-- The annotations record of one database entry: an optional label plus
the half-open segment. -/
structure Ann where
  label : Option String
  segment : Nat × Nat
  deriving DecidableEq

/-- One value of the database mapping: the subset tag and the annotations
record. -/
structure DBEntry where
  subset : String
  annotations : Ann
  deriving DecidableEq

/-- Parsed annotation file: data["labels"] and data["database"] (an
ordered mapping, rendered as an association list in iteration order). -/
structure AnnotationData where
  labels : List String
  database : List (String × DBEntry)

/-- Python dict assignment d[k] = v: update in place when the key is
present (keeping its position), else append. -/
def dictInsert {α β : Type} [DecidableEq α] (d : List (α × β)) (k : α)
    (v : β) : List (α × β) :=
  if ∃ p ∈ d, p.1 = k then d.map (fun p => if p.1 = k then (k, v) else p)
  else d ++ [(k, v)]

/-- Python dict lookup d[k], as an Option. -/
def dictGet? {α β : Type} [DecidableEq α] (d : List (α × β)) (k : α) :
    Option β :=
  (d.find? (fun p => decide (p.1 = k))).map (fun p => p.2)

/-- Loop of get_class_labels: for class_label in data["labels"], assign
the running index and increment it. -/
def classLabelsLoop : List String → List (String × Nat) → Nat →
    List (String × Nat)
  | [], m, _ => m
  | l :: rest, m, index => classLabelsLoop rest (dictInsert m l index) (index + 1)

/-- get_class_labels(data). -/
def get_class_labels (data : AnnotationData) : List (String × Nat) :=
  classLabelsLoop data.labels [] 0

/-- Loop building idx_to_class inside make_dataset. -/
def idxToClassLoop : List (String × Nat) → List (Nat × String) →
    List (Nat × String)
  | [], m => m
  | (name, label) :: rest, m => idxToClassLoop rest (dictInsert m label name)

/-- The idx_to_class construction at the top of make_dataset. -/
def build_idx_to_class (class_to_idx : List (String × Nat)) :
    List (Nat × String) :=
  idxToClassLoop class_to_idx []

/-- get_video_ids_and_annotations(data, subset): keep database entries
whose subset tag equals subset, returning ids and annotations in order. -/
def get_video_ids_and_annotations (data : AnnotationData) (subset : String) :
    List String × List Ann :=
  let kept := data.database.filter (fun kv => kv.2.subset == subset)
  (kept.map (fun kv => kv.1), kept.map (fun kv => kv.2.annotations))

/-- Which paths exist on the filesystem (video_path.exists()). -/
abbrev FsExists := VPath → Bool

/-- The label resolution step of the make_dataset loop: a present label is
translated through class_to_idx (a missing key raises KeyError), an absent
one becomes the pseudo-class "test" with sentinel id -1. -/
def resolve_label (class_to_idx : List (String × Nat)) (ann : Ann) :
    Except PyError (String × Int) :=
  match ann.label with
  | some l =>
    match dictGet? class_to_idx l with
    | some lid => .ok (l, (lid : Int))
    | none => .error (.keyError l)
  | none => .ok ("test", (-1 : Int))

/-- Loop body of make_dataset over the retained (video_id, annotations)
pairs; n_videos is the total count and i the running index.  The progress
line evaluates i % (n_videos // 5), which raises ZeroDivisionError when
n_videos // 5 == 0; the print itself has no further effect here. -/
def dataset_loop (root_path : VPath) (fs : FsExists)
    (class_to_idx : List (String × Nat)) (n_videos : Nat) :
    Nat → List (String × Ann) → Except PyError (List Sample)
  | _, [] => .ok []
  | i, (vid, ann) :: rest =>
    if n_videos / 5 = 0 then .error .zeroDivision
    else
      match resolve_label class_to_idx ann with
      | .error e => .error e
      | .ok (label, label_id) =>
        let video_path := root_path ++ [label, vid ++ ".hdf5"]
        if fs video_path = false then
          dataset_loop root_path fs class_to_idx n_videos (i + 1) rest
        else if ann.segment.2 = 1 then
          dataset_loop root_path fs class_to_idx n_videos (i + 1) rest
        else
          match dataset_loop root_path fs class_to_idx n_videos (i + 1) rest with
          | .error e => .error e
          | .ok ds =>
            .ok ({ video := video_path, segment := ann.segment,
                   frame_indices := List.range' ann.segment.1
                     (ann.segment.2 - ann.segment.1),
                   video_id := vid, label := label_id } :: ds)

/-- make_dataset(root_path, annotation_path, subset).  The annotation
parse (load_annotation_data, external to the sources) is represented by
its structured result data; fs models video_path.exists(). -/
def make_dataset (root_path : VPath) (data : AnnotationData) (subset : String)
    (fs : FsExists) : Except PyError (List Sample × List (Nat × String)) :=
  let ids_anns := get_video_ids_and_annotations data subset
  let class_to_idx := get_class_labels data
  let idx_to_class := build_idx_to_class class_to_idx
  let n_videos := ids_anns.1.length
  match dataset_loop root_path fs class_to_idx n_videos 0
      (ids_anns.1.zip ids_anns.2) with
  | .error e => .error e
  | .ok ds => .ok (ds, idx_to_class)

/-- Python-level target values as they flow through collate_fn. -/
inductive PyTarget where
  | int (n : Int)
  | dict (s : Sample)
  | str (s : String)
  | list (ts : List PyTarget)

/-- Keys of a sample dict, in insertion order (iterating a Python dict
yields its keys). -/
def sampleKeys : List String :=
  ["video", "segment", "frame_indices", "video_id", "label"]

/-- One step of the target flattening comprehension: iterate one element
of batch_targets.  Iterating a list yields its elements, iterating an int
raises TypeError, iterating a dict yields its keys, iterating a string
yields its characters. -/
def iterTarget : PyTarget → Except PyError (List PyTarget)
  | .list l => .ok l
  | .int _ => .error .typeError
  | .dict _ => .ok (sampleKeys.map PyTarget.str)
  | .str s => .ok (s.toList.map (fun c => PyTarget.str (String.mk [c])))

/-- The comprehension flattening batch_targets by one level. -/
def flattenTargets : List PyTarget → Except PyError (List PyTarget)
  | [] => .ok []
  | t :: rest =>
    match iterTarget t with
    | .error e => .error e
    | .ok hd =>
      match flattenTargets rest with
      | .error e => .error e
      | .ok tl => .ok (hd ++ tl)

/-- One clip entry of a batch handed to collate_fn: either a single clip
tensor or a list of clip tensors (multi-window sample). -/
inductive ClipEntry where
  | single (t : Tensor Int)
  | multi (ts : List (Tensor Int))

/-- Iterating a torch tensor yields its slices along axis 0. -/
def tensorUnstack (t : Tensor Int) : List (Tensor Int) :=
  (List.range (t.shape.headD 0)).map
    (fun i => { shape := t.shape.tail, data := fun idx => t.data (i :: idx) })

/-- The comprehension flattening batch_clips by one level. -/
def flattenClipEntry : ClipEntry → List (Tensor Int)
  | .multi ts => ts
  | .single t => tensorUnstack t

/-- default_collate(batch_clips) when no flattening happened: every entry
must be a tensor (a list mixed in among tensors cannot be stacked). -/
def clipsAsTensors : List ClipEntry → Except PyError (List (Tensor Int))
  | [] => .ok []
  | .single t :: rest =>
    match clipsAsTensors rest with
    | .error e => .error e
    | .ok l => .ok (t :: l)
  | .multi _ :: _ => .error .typeError

def allInts : List PyTarget → Option (List Int)
  | [] => some []
  | .int n :: rest =>
    match allInts rest with
    | none => none
    | some l => some (n :: l)
  | _ => none

/-- default_collate(batch_targets) when batch_targets[0] is an int:
torch collates a list of ints into a 1-D int tensor. -/
def default_collate_ints (ts : List PyTarget) : Except PyError (Tensor Int) :=
  match allInts ts with
  | some vals => .ok { shape := [vals.length],
                       data := fun idx => vals.getD (idx.headD 0) 0 }
  | none => .error .typeError

/-- The second component returned by collate_fn: a batched int tensor or
the plain ordered target list. -/
inductive CollatedTargets where
  | tensor (t : Tensor Int)
  | listed (ts : List PyTarget)

/-- Tail of collate_fn: branch on isinstance(batch_targets[0], int), then
default_collate the clips (torch.stack) and, in the int case, the
targets. -/
def collateFinish (clips : List (Tensor Int)) (targets : List PyTarget) :
    Except PyError (Tensor Int × CollatedTargets) :=
  match targets with
  | [] => .error .indexError
  | PyTarget.int _ :: _ =>
    match torchStack clips, default_collate_ints targets with
    | .ok c, .ok t => .ok (c, .tensor t)
    | .error e, _ => .error e
    | .ok _, .error e => .error e
  | _ :: _ =>
    match torchStack clips with
    | .ok c => .ok (c, .listed targets)
    | .error e => .error e

/-- collate_fn(batch). -/
def collate_fn (batch : List (ClipEntry × PyTarget)) :
    Except PyError (Tensor Int × CollatedTargets) :=
  match batch with
  | [] => .error .unpackError
  | first :: _ =>
    let batch_clips := batch.map (fun b => b.1)
    let batch_targets := batch.map (fun b => b.2)
    match first.1 with
    | .multi _ =>
      match flattenTargets batch_targets with
      | .error e => .error e
      | .ok flat_targets =>
        collateFinish (batch_clips.flatMap flattenClipEntry) flat_targets
    | .single _ =>
      match clipsAsTensors batch_clips with
      | .error e => .error e
      | .ok clips => collateFinish clips batch_targets

/-- Frame indices as returned by a temporal transform: a flat list of
ints, or a list of lists for the multi-window fan-out. -/
inductive FrameIndices where
  | flat (l : List Nat)
  | nested (l : List (List Nat))

/-- The VideoDataset object state: self.data, self.class_names, the three
transforms, and self.loader.  The spatial transform randomize_parameters
call draws the per-clip random state; it does not affect shapes and the
transform is modeled as a pure function. -/
structure VideoDataset where
  data : List Sample
  class_names : List (Nat × String)
  spatial_transform : Option (Image → Tensor Int)
  temporal_transform : Option (List Nat → FrameIndices)
  target_transform : Option (Sample → Sample)
  loader : VPath → List Nat → Except PyError (List Image)

/-- VideoDataset.__init__: build the dataset and set self.loader to
video_loader, reading archives from the ambient store. -/
def VideoDataset.init (store : ArchiveStore) (root_path : VPath)
    (data : AnnotationData) (subset : String) (fs : FsExists)
    (st : Option (Image → Tensor Int)) (tt : Option (List Nat → FrameIndices))
    (tgt : Option (Sample → Sample)) : Except PyError VideoDataset :=
  match make_dataset root_path data subset fs with
  | .error e => .error e
  | .ok (d, names) =>
    .ok { data := d, class_names := names, spatial_transform := st,
          temporal_transform := tt, target_transform := tgt,
          loader := video_loader store }

/-- VideoDataset.loading(path, frame_indices): fetch the frames through
self.loader, apply the spatial transform to each frame, then
torch.stack(clip, 0).permute(1, 0, 2, 3).  Without a spatial transform
the stack call receives PIL images and raises TypeError. -/
def loading (ds : VideoDataset) (path : VPath) (frame_indices : List Nat) :
    Except PyError (Tensor Int) :=
  match ds.loader path frame_indices with
  | .error e => .error e
  | .ok clip =>
    match ds.spatial_transform with
    | some st =>
      match torchStack (clip.map st) with
      | .error e => .error e
      | .ok stacked => permute1023 stacked
    | none => .error .typeError

/-- What the multi-window loop appends to targets: without a target
transform it appends the dict reference itself (current_target = target
binds the same object as self.data[index]), whose observed value is the
dict state after the loop finishes; with a transform it appends the
transform result computed from the dict state at that moment. -/
inductive TargetObs where
  | ref
  | val (t : Sample)

/-- The multi-window loop of __getitem__.  The state d is the descriptor
dict aliased by target; each iteration assigns
current_target["segment"] = [one_frame_indices[0], one_frame_indices[-1] + 1]
in place.  Returns the loop result together with the final dict state,
which also reflects mutations performed before an exception. -/
def multiLoop (ds : VideoDataset) (path : VPath) :
    List (List Nat) → Sample →
    Except PyError (List (Tensor Int) × List TargetObs) × Sample
  | [], d => (.ok ([], []), d)
  | ofi :: rest, d =>
    match loading ds path ofi with
    | .error e => (.error e, d)
    | .ok clip =>
      match ofi with
      | [] => (.error .indexError, d)
      | i0 :: _ =>
        let d1 : Sample :=
          { d with segment := (i0, (ofi.getLast?).getD 0 + 1) }
        let obs := match ds.target_transform with
          | some tf => TargetObs.val (tf d1)
          | none => TargetObs.ref
        match multiLoop ds path rest d1 with
        | (.error e, d2) => (.error e, d2)
        | (.ok (clips, obss), d2) => (.ok (clip :: clips, obs :: obss), d2)

/-- Result of a __getitem__ call. -/
inductive GetResult where
  | single (clip : Tensor Int) (target : Sample)
  | multi (clips : List (Tensor Int)) (targets : List Sample)

def GetResult.targetsOf : GetResult → List Sample
  | .single _ t => [t]
  | .multi _ ts => ts

/-- VideoDataset.__getitem__(index).  Returns the raised-or-returned
result together with self.data after the call: in the multi-window branch
the loop mutates the stored descriptor dict in place through the target
alias, so the returned reference targets all resolve to the final dict
state and the stored list is updated at index. -/
def getitem (ds : VideoDataset) (index : Nat) :
    Except PyError GetResult × List Sample :=
  if index < ds.data.length then
    let target := ds.data.getD index default
    let path := target.video
    let fi0 := target.frame_indices
    let fi := match ds.temporal_transform with
      | some tt => tt fi0
      | none => FrameIndices.flat fi0
    match fi with
    | .flat [] => (.error .indexError, ds.data)
    | .nested [] => (.error .indexError, ds.data)
    | .flat l =>
      match loading ds path l with
      | .error e => (.error e, ds.data)
      | .ok clip =>
        match ds.target_transform with
        | some tf => (.ok (.single clip (tf target)), ds.data)
        | none => (.ok (.single clip target), ds.data)
    | .nested ls =>
      match multiLoop ds path ls target with
      | (.error e, d2) => (.error e, ds.data.set index d2)
      | (.ok (clips, obss), d2) =>
        (.ok (.multi clips
            (obss.map (fun o => match o with
              | TargetObs.ref => d2
              | TargetObs.val t => t))), ds.data.set index d2)
  else (.error .indexError, ds.data)

/-- Python range(a, b, s) for positive stride s: a, a + s, ... while the
value is below b; rendered in closed form with the ceiling count. -/
def rangeStride (a b s : Nat) : List Nat :=
  (List.range ((b - a + s - 1) / s)).map (fun k => a + k * s)

/-- VideoDataset.temporal_sliding_window(sample_duration, sample_stride):
rebuild self.data, expanding every sample into stride-spaced windows with
segment (t, min(t + sample_duration, t_end)) and recomputed
frame_indices; copy.deepcopy keeps the remaining fields. -/
def temporal_sliding_window (ds : VideoDataset)
    (sample_duration sample_stride : Nat) : VideoDataset :=
  { ds with data := ds.data.flatMap (fun x =>
      (rangeStride x.segment.1 x.segment.2 sample_stride).map (fun t =>
        { x with
          segment := (t, min (t + sample_duration) x.segment.2),
          frame_indices := List.range' t
            (min (t + sample_duration) x.segment.2 - t) })) }

/-- Specification rendering of the Temporal Windower (spec 4.3), written
as the spec phrases it: successive windows starting at start, start + S,
and so on while start < t1, each window ending at min(start + D, t1),
with frame_indices recomputed and the other fields kept. -/
def sliding_windows_from (x : Sample) (D S t1 start : Nat) : List Sample :=
  if _hlt : 0 < S ∧ start < t1 then
    { x with segment := (start, min (start + D) t1),
             frame_indices := List.range' start (min (start + D) t1 - start) }
      :: sliding_windows_from x D S t1 (start + S)
  else []
termination_by t1 - start
decreasing_by omega

/-- Archive store used by the concrete evaluations below: every path holds
a six-frame archive. -/
def egStore : ArchiveStore := fun _ => [⟨0⟩, ⟨1⟩, ⟨2⟩, ⟨3⟩, ⟨4⟩, ⟨5⟩]

/-- Store holding a two-frame archive at every path. -/
def egStore2 : ArchiveStore := fun _ => [⟨0⟩, ⟨1⟩]

def collectFrames (contents : List Blob) : List Nat → List Image
  | [] => []
  | i :: rest =>
    if i < contents.length then
      decodeImage (contents.getD i default) :: collectFrames contents rest
    else []

/-- A loader meeting the Archive Reader contract of spec 4.1 (decode in
order, stop at the first out-of-range index, file handle released before
returning).  self.loader is a plain attribute, so a dataset carrying this
loader is a reachable object state; it is used below to isolate the
Sample Assembler behavior from the handle defect of video_loader. -/
def contractLoader (store : ArchiveStore) (p : VPath) (fi : List Nat) :
    Except PyError (List Image) :=
  .ok (collectFrames (store p) fi)

/-- A spatial transform producing unit-shape tensors, standing in for a
ToTensor-style pipeline. -/
def egSpatial : Image → Tensor Int :=
  fun img => { shape := [1, 1, 1], data := fun _ => (img.blob.val : Int) }

def sampleA : Sample :=
  { video := ["root", "run", "vA.hdf5"], segment := (0, 4),
    frame_indices := [0, 1, 2, 3], video_id := "vA", label := 0 }

/-- Dataset state exercising the multi-window branch of __getitem__ with a
temporal transform returning [[0, 1], [2, 3]] and no target transform. -/
def dsA : VideoDataset :=
  { data := [sampleA], class_names := [(0, "run")],
    spatial_transform := some egSpatial,
    temporal_transform := some (fun _ => .nested [[0, 1], [2, 3]]),
    target_transform := none,
    loader := contractLoader egStore }

def sampleB : Sample :=
  { video := ["root", "run", "vB.hdf5"], segment := (0, 6),
    frame_indices := [0, 1, 2, 3, 4, 5], video_id := "vB", label := 0 }

/-- Dataset state exercising the in-place descriptor mutation of the
multi-window branch. -/
def dsB : VideoDataset :=
  { data := [sampleB], class_names := [(0, "run")],
    spatial_transform := some egSpatial,
    temporal_transform := some (fun _ => .nested [[0, 1, 2], [3, 4, 5]]),
    target_transform := none,
    loader := contractLoader egStore }

def sampleC : Sample :=
  { video := ["root", "run", "vC.hdf5"], segment := (0, 2),
    frame_indices := [0, 1], video_id := "vC", label := 0 }

/-- Dataset state as produced by __init__ (loader = video_loader), single
window, no temporal transform, all frame indices in bounds. -/
def dsC : VideoDataset :=
  { data := [sampleC], class_names := [(0, "run")],
    spatial_transform := some egSpatial,
    temporal_transform := none,
    target_transform := none,
    loader := video_loader egStore }

def annRun (a b : Nat) : Ann := { label := some "run", segment := (a, b) }

/-- Annotation source with five training videos, one of which has the
unit-length segment (5, 6). -/
def cx6Data : AnnotationData :=
  { labels := ["run"],
    database :=
      [("v0", { subset := "training", annotations := annRun 5 6 }),
       ("v1", { subset := "training", annotations := annRun 0 3 }),
       ("v2", { subset := "training", annotations := annRun 0 3 }),
       ("v3", { subset := "training", annotations := annRun 0 3 }),
       ("v4", { subset := "training", annotations := annRun 0 3 })] }

def allExist : FsExists := fun _ => true

def egRoot : VPath := ["root"]

def cx6Sample (vid : String) (a b : Nat) : Sample :=
  { video := ["root", "run", vid ++ ".hdf5"], segment := (a, b),
    frame_indices := List.range' a (b - a), video_id := vid, label := 0 }

def cx6Expected : List Sample :=
  [cx6Sample "v0" 5 6, cx6Sample "v1" 0 3, cx6Sample "v2" 0 3,
   cx6Sample "v3" 0 3, cx6Sample "v4" 0 3]

/-- Annotation source with a single training video, triggering the
division by zero in the progress report of make_dataset. -/
def cx10Data : AnnotationData :=
  { labels := ["run"],
    database := [("w0", { subset := "training", annotations := annRun 0 3 })] }

/-- Annotation source with no training videos. -/
def cx10Empty : AnnotationData :=
  { labels := ["run"], database := [] }

/-- Annotation source with a three-entry label vocabulary. -/
def egAnnData : AnnotationData :=
  { labels := ["run", "walk", "jump"], database := [] }

def sampleWin : Sample :=
  { video := ["root", "run", "vW.hdf5"], segment := (0, 10),
    frame_indices := List.range' 0 10, video_id := "vW", label := 0 }

/-- Dataset state for the sliding-window evaluation. -/
def dsWin : VideoDataset :=
  { data := [sampleWin], class_names := [(0, "run")],
    spatial_transform := none, temporal_transform := none,
    target_transform := none, loader := video_loader egStore }

/-- Concrete unit-shape tensor for the collate evaluations. -/
def egT : Tensor Int := { shape := [1, 1, 1], data := fun _ => 7 }

/-- C4: video_loader binds the frame collection inside the with-block but
reads it only after the block has closed the archive file, so under
file-handle semantics where reads after close fail, every call with a
nonempty frame_indices sequence fails with the closed-handle error
instead of returning decoded frames. -/
theorem video_loader_fails_after_close (store : ArchiveStore) (p : VPath)
    (i : Nat) (rest : List Nat) :
    video_loader store p (i :: rest) = .error .closedRead := rfl

/-- C3: the claim says a request for indices [0, 1, 2] against an archive
of length 2 returns exactly 2 decoded frames by early stop.  Evaluating
the code at that input instead yields the closed-handle read error: the
with-block closes the archive before the loop evaluates
len(video_data). -/
theorem video_loader_partial_request_eval :
    video_loader egStore2 ["p"] [0, 1, 2] = .error .closedRead := rfl

/-- C1: with the temporal transform returning [[0, 1], [2, 3]] and no
target transform, __getitem__ does return two clips and two targets, but
both returned targets are the same descriptor dict, whose segment was
last overwritten to (2, 4): the first returned segment is (2, 4), not
(0, 2) as claimed. -/
theorem getitem_multiwindow_segments_eval :
    (getitem dsA 0).1.map GetResult.targetsOf =
      .ok [{ sampleA with segment := (2, 4) },
           { sampleA with segment := (2, 4) }] := rfl

/-- C2: a __getitem__ call taking the multi-window branch mutates the
stored descriptor list in place: afterwards the stored descriptor of dsB
has segment (3, 6) instead of the original (0, 6), so the flat list is
not read-only under get and the returned targets alias the stored
dict. -/
theorem getitem_mutates_descriptor_eval :
    (getitem dsB 0).2 = [{ sampleB with segment := (3, 6) }] ∧
    ({ sampleB with segment := (3, 6) } : Sample) ≠ sampleB :=
  ⟨rfl, by decide⟩

/-- C8: the claim says get(i) with no temporal transform returns a clip
with time length end - start in (channel, time, height, width) order; on
a dataset whose loader is the video_loader installed by __init__, with
every frame index in bounds, the call instead raises the closed-handle
error before any clip is produced. -/
theorem getitem_single_window_eval :
    getitem dsC 0 = (.error .closedRead, dsC.data) := rfl

theorem rangeStride_nil (a b s : Nat) (hs : 0 < s) (hab : ¬ a < b) :
    rangeStride a b s = [] := by
  unfold rangeStride
  have h0 : b - a = 0 := by omega
  rw [h0]
  have h1 : (0 + s - 1) / s = 0 := Nat.div_eq_of_lt (by omega)
  rw [h1]
  rfl

theorem rangeStride_cons (a b s : Nat) (hs : 0 < s) (hab : a < b) :
    rangeStride a b s = a :: rangeStride (a + s) b s := by
  unfold rangeStride
  have hcount : (b - a + s - 1) / s = (b - (a + s) + s - 1) / s + 1 := by
    rcases le_or_lt s (b - a) with h | h
    · have h1 : b - a + s - 1 = (b - (a + s) + s - 1) + s := by omega
      rw [h1, Nat.add_div_right _ hs]
    · have h1 : b - (a + s) = 0 := by omega
      have h2 : (b - a + s - 1) / s = 1 := by
        apply Nat.div_eq_of_lt_le
        · omega
        · omega
      have h3 : (0 + s - 1) / s = 0 := Nat.div_eq_of_lt (by omega)
      rw [h1, h2, h3]
  rw [hcount, List.range_succ_eq_map]
  simp only [List.map_cons, List.map_map]
  congr 1
  · omega
  · apply List.map_congr_left
    intro k _
    simp only [Function.comp_apply]
    rw [Nat.succ_mul]
    ring

theorem rangeStride_windows (x : Sample) (D S : Nat) (hS : 0 < S) (b : Nat) :
    ∀ (n a : Nat), b - a ≤ n →
      (rangeStride a b S).map (fun t =>
        { x with segment := (t, min (t + D) b),
                 frame_indices := List.range' t (min (t + D) b - t) }) =
      sliding_windows_from x D S b a := by
  intro n
  induction n with
  | zero =>
    intro a ha
    have hab : ¬ a < b := by omega
    rw [rangeStride_nil a b S hS hab]
    rw [sliding_windows_from]
    simp [hab]
  | succ n ih =>
    intro a ha
    by_cases hab : a < b
    · rw [rangeStride_cons a b S hS hab]
      rw [sliding_windows_from, dif_pos ⟨hS, hab⟩]
      simp only [List.map_cons]
      congr 1
      exact ih (a + S) (by omega)
    · rw [rangeStride_nil a b S hS hab]
      rw [sliding_windows_from]
      simp [hab]

/-- C5: temporal_sliding_window(D, S) with positive stride replaces every
sample by the windows the spec describes: starts t0, t0 + S, t0 + 2S, ...
for every start < t1, each window with segment
(start, min(start + D, t1)), recomputed frame_indices and the other
fields deep-copied, in order across the original samples. -/
theorem temporal_sliding_window_spec (ds : VideoDataset) (D S : Nat)
    (hS : 0 < S) :
    (temporal_sliding_window ds D S).data =
      ds.data.flatMap
        (fun x => sliding_windows_from x D S x.segment.2 x.segment.1) := by
  show ds.data.flatMap _ = ds.data.flatMap _
  refine congrArg _ (funext fun x => ?_)
  exact rangeStride_windows x D S hS x.segment.2
    (x.segment.2 - x.segment.1) x.segment.1 le_rfl

/-- Witness for C5: a sample with segment (0, 10), D = 4, S = 4 produces
exactly the windows (0, 4), (4, 8), (8, 10). -/
theorem temporal_sliding_window_spec_witness :
    (temporal_sliding_window dsWin 4 4).data =
      dsWin.data.flatMap
        (fun x => sliding_windows_from x 4 4 x.segment.2 x.segment.1) ∧
    (temporal_sliding_window dsWin 4 4).data.map (fun s => s.segment) =
      [(0, 4), (4, 8), (8, 10)] :=
  ⟨temporal_sliding_window_spec dsWin 4 4 (by decide), by decide⟩

theorem dataset_loop_sound (root : VPath) (fs : FsExists)
    (ctx : List (String × Nat)) (n : Nat) :
    ∀ (pairs : List (String × Ann)) (i : Nat) (l : List Sample),
      dataset_loop root fs ctx n i pairs = .ok l →
      ∀ s ∈ l, s.segment.2 ≠ 1 ∧ fs s.video = true := by
  intro pairs
  induction pairs with
  | nil =>
    intro i l h s hs
    simp only [dataset_loop] at h
    cases h
    simp at hs
  | cons p rest ih =>
    obtain ⟨vid, ann⟩ := p
    intro i l h s hs
    simp only [dataset_loop] at h
    by_cases hdiv : n / 5 = 0
    · rw [if_pos hdiv] at h
      cases h
    · rw [if_neg hdiv] at h
      rcases hres : resolve_label ctx ann with e | ⟨label, label_id⟩
      · simp only [hres] at h
        cases h
      · simp only [hres] at h
        by_cases hfs : fs (root ++ [label, vid ++ ".hdf5"]) = false
        · rw [if_pos hfs] at h
          exact ih (i + 1) l h s hs
        · rw [if_neg hfs] at h
          by_cases hseg : ann.segment.2 = 1
          · rw [if_pos hseg] at h
            exact ih (i + 1) l h s hs
          · rw [if_neg hseg] at h
            rcases hrec : dataset_loop root fs ctx n (i + 1) rest with e2 | ds2
            · simp only [hrec] at h
              cases h
            · simp only [hrec] at h
              obtain rfl : _ :: ds2 = l := by
                simpa using h
              rcases List.mem_cons.mp hs with rfl | hmem
              · refine ⟨hseg, ?_⟩
                simpa using hfs
              · exact ih (i + 1) ds2 hrec s hmem

/-- C6 (amended): every sample retained by make_dataset has segment end
bound different from 1 and its video file exists at build time. -/
theorem make_dataset_excludes_end_one (root : VPath) (data : AnnotationData)
    (subset : String) (fs : FsExists) (samples : List Sample)
    (m : List (Nat × String))
    (h : make_dataset root data subset fs = .ok (samples, m)) :
    ∀ s ∈ samples, s.segment.2 ≠ 1 ∧ fs s.video = true := by
  simp only [make_dataset] at h
  rcases hloop : dataset_loop root fs (get_class_labels data)
      (get_video_ids_and_annotations data subset).1.length 0
      ((get_video_ids_and_annotations data subset).1.zip
        (get_video_ids_and_annotations data subset).2) with e | ds
  · simp only [hloop] at h
    cases h
  · simp only [hloop] at h
    simp only [Except.ok.injEq, Prod.mk.injEq] at h
    obtain ⟨rfl, -⟩ := h
    exact dataset_loop_sound root fs (get_class_labels data) _ _ 0 ds hloop

/-- C6 counterexample: a candidate whose segment (5, 6) has length 1 (so
end - start <= 1 but end bound different from 1) is retained by
make_dataset, refuting the claim that all candidates with
b - a <= 1 are excluded. -/
theorem make_dataset_retains_short_segment :
    make_dataset egRoot cx6Data "training" allExist =
      .ok (cx6Expected, [(0, "run")]) ∧
    cx6Sample "v0" 5 6 ∈ cx6Expected ∧
    (cx6Sample "v0" 5 6).segment.2 - (cx6Sample "v0" 5 6).segment.1 ≤ 1 := by
  refine ⟨rfl, by decide, by decide⟩

/-- Witness for C6: the amended theorem applied to the concrete build
above, at its first retained sample. -/
theorem make_dataset_excludes_end_one_witness :
    (cx6Sample "v0" 5 6).segment.2 ≠ 1 ∧
    allExist (cx6Sample "v0" 5 6).video = true :=
  make_dataset_excludes_end_one egRoot cx6Data "training" allExist
    cx6Expected [(0, "run")] rfl (cx6Sample "v0" 5 6) (by decide)

theorem dataset_loop_zdiv (root : VPath) (fs : FsExists)
    (ctx : List (String × Nat)) (n : Nat) (hdiv : n / 5 = 0) (i : Nat)
    (v : String) (a : Ann) (rest : List (String × Ann)) :
    dataset_loop root fs ctx n i ((v, a) :: rest) = .error .zeroDivision := by
  simp [dataset_loop, hdiv]

/-- C10: with between 1 and 4 videos matching the subset, make_dataset
raises the division by zero of the progress report before any sample is
emitted; with 0 matching videos it instead returns the empty dataset. -/
theorem make_dataset_progress_divzero (root : VPath) (data : AnnotationData)
    (subset : String) (fs : FsExists) :
    (1 ≤ (get_video_ids_and_annotations data subset).1.length →
      (get_video_ids_and_annotations data subset).1.length ≤ 4 →
      make_dataset root data subset fs = .error .zeroDivision) ∧
    ((get_video_ids_and_annotations data subset).1.length = 0 →
      make_dataset root data subset fs =
        .ok ([], build_idx_to_class (get_class_labels data))) := by
  have hlen2 : (get_video_ids_and_annotations data subset).2.length =
      (get_video_ids_and_annotations data subset).1.length := by
    simp [get_video_ids_and_annotations]
  constructor
  · intro h1 h4
    have hdiv : (get_video_ids_and_annotations data subset).1.length / 5 = 0 :=
      Nat.div_eq_of_lt (by omega)
    rcases hz : (get_video_ids_and_annotations data subset).1.zip
        (get_video_ids_and_annotations data subset).2 with _ | ⟨⟨v, a⟩, rest⟩
    · exfalso
      have hlz := congrArg List.length hz
      rw [List.length_zip, hlen2] at hlz
      simp only [List.length_nil] at hlz
      omega
    · simp only [make_dataset, hz,
        dataset_loop_zdiv root fs (get_class_labels data) _ hdiv 0 v a rest]
  · intro h0
    have hnil : (get_video_ids_and_annotations data subset).1 = [] :=
      List.length_eq_zero.mp h0
    simp [make_dataset, hnil, dataset_loop]

/-- Witness for C10: one matching training video raises the division by
zero; no matching training video builds the empty dataset. -/
theorem make_dataset_progress_divzero_witness :
    make_dataset egRoot cx10Data "training" allExist = .error .zeroDivision ∧
    make_dataset egRoot cx10Empty "training" allExist =
      .ok ([], build_idx_to_class (get_class_labels cx10Empty)) :=
  ⟨(make_dataset_progress_divzero egRoot cx10Data "training" allExist).1
      (by decide) (by decide),
   (make_dataset_progress_divzero egRoot cx10Empty "training" allExist).2
      (by decide)⟩

theorem dictInsert_fresh {α β : Type} [DecidableEq α] (d : List (α × β))
    (k : α) (v : β) (h : ∀ p ∈ d, p.1 ≠ k) :
    dictInsert d k v = d ++ [(k, v)] := by
  unfold dictInsert
  rw [if_neg]
  rintro ⟨p, hp, hpk⟩
  exact h p hp hpk

theorem dictGet?_eq_some_iff {α β : Type} [DecidableEq α]
    (l : List (α × β)) (k : α) (v : β) :
    (l.map Prod.fst).Nodup → (dictGet? l k = some v ↔ (k, v) ∈ l) := by
  induction l with
  | nil => intro _; simp [dictGet?]
  | cons p rest ih =>
    obtain ⟨a, b⟩ := p
    intro hnd
    rw [List.map_cons, List.nodup_cons] at hnd
    by_cases hak : a = k
    · subst hak
      unfold dictGet?
      rw [List.find?_cons_of_pos _ (by simp)]
      simp only [Option.map_some']
      constructor
      · intro hv
        obtain rfl : b = v := Option.some.inj hv
        exact List.mem_cons_self _ _
      · intro hm
        rcases List.mem_cons.mp hm with heq | hmem
        · simp only [Prod.mk.injEq] at heq
          rw [heq.2]
        · exact absurd (List.mem_map.mpr ⟨(a, v), hmem, rfl⟩) hnd.1
    · unfold dictGet?
      rw [List.find?_cons_of_neg _ (by simp [hak])]
      rw [show ((rest.find? fun p => decide (p.1 = k)).map fun p => p.2) =
            dictGet? rest k from rfl]
      rw [ih hnd.2]
      constructor
      · exact fun hm => List.mem_cons_of_mem _ hm
      · intro hm
        rcases List.mem_cons.mp hm with heq | hmem
        · exact absurd (congrArg Prod.fst heq).symm hak
        · exact hmem

theorem classLabelsLoop_eq (labels : List String) :
    ∀ (m : List (String × Nat)) (i : Nat),
      labels.Nodup → (∀ l ∈ labels, ∀ p ∈ m, p.1 ≠ l) →
      classLabelsLoop labels m i =
        m ++ labels.zip (List.range' i labels.length) := by
  induction labels with
  | nil =>
    intro m i _ _
    simp [classLabelsLoop]
  | cons l rest ih =>
    intro m i hnd hfresh
    simp only [classLabelsLoop]
    rw [dictInsert_fresh m l i (fun p hp => hfresh l (by simp) p hp)]
    rw [ih (m ++ [(l, i)]) (i + 1) hnd.of_cons ?_]
    · simp [List.range'_succ]
    · intro l2 hl2 p hp
      rcases List.mem_append.mp hp with hm | hsing
      · exact hfresh l2 (List.mem_cons_of_mem _ hl2) p hm
      · have hp2 : p = (l, i) := by simpa using hsing
        subst hp2
        have hlnot : l ∉ rest := (List.nodup_cons.mp hnd).1
        exact fun hcon => hlnot (by rw [show l = l2 from hcon]; exact hl2)

theorem idxToClassLoop_eq (pairs : List (String × Nat)) :
    ∀ (m : List (Nat × String)),
      (pairs.map Prod.snd).Nodup →
      (∀ q ∈ pairs, ∀ p ∈ m, p.1 ≠ q.2) →
      idxToClassLoop pairs m = m ++ pairs.map (fun q => (q.2, q.1)) := by
  induction pairs with
  | nil =>
    intro m _ _
    simp [idxToClassLoop]
  | cons q rest ih =>
    obtain ⟨name, label⟩ := q
    intro m hnd hfresh
    rw [List.map_cons, List.nodup_cons] at hnd
    simp only [idxToClassLoop]
    rw [dictInsert_fresh m label name (fun p hp => hfresh (name, label) (by simp) p hp)]
    rw [ih (m ++ [(label, name)]) hnd.2 ?_]
    · simp
    · intro q2 hq2 p hp
      rcases List.mem_append.mp hp with hm | hsing
      · exact hfresh q2 (List.mem_cons_of_mem _ hq2) p hm
      · have hp2 : p = (label, name) := by simpa using hsing
        subst hp2
        exact fun hcon => hnd.1 (by
          rw [show label = q2.2 from hcon]
          exact List.mem_map.mpr ⟨q2, hq2, rfl⟩)

theorem get_class_labels_eq (data : AnnotationData)
    (hnd : data.labels.Nodup) :
    get_class_labels data =
      data.labels.zip (List.range data.labels.length) := by
  unfold get_class_labels
  rw [classLabelsLoop_eq data.labels [] 0 hnd (by simp)]
  rw [List.range_eq_range']
  simp

/-- C7: for a duplicate-free label vocabulary of K entries, class_to_idx
assigns dense indices 0..K-1 in file order (the j-th label receives index
j), idx_to_class is the exact inverse of class_to_idx on all K classes,
the mapping depends only on the label list (so a fixed annotation order
yields the identical mapping across repeated builds), and the assigned
index set is exactly 0, ..., K-1. -/
theorem get_class_labels_spec (data : AnnotationData)
    (hnd : data.labels.Nodup) :
    (∀ j (hj : j < data.labels.length),
        dictGet? (get_class_labels data) data.labels[j] = some j) ∧
    (∀ name idx,
        dictGet? (get_class_labels data) name = some idx ↔
        dictGet? (build_idx_to_class (get_class_labels data)) idx = some name) ∧
    (∀ d2 : AnnotationData, d2.labels = data.labels →
        get_class_labels d2 = get_class_labels data) ∧
    (get_class_labels data).map Prod.snd = List.range data.labels.length := by
  have hctx := get_class_labels_eq data hnd
  have hkeys : ((get_class_labels data).map Prod.fst).Nodup := by
    rw [hctx, List.map_fst_zip _ _ (by simp)]
    exact hnd
  have hvals_eq : (get_class_labels data).map Prod.snd =
      List.range data.labels.length := by
    rw [hctx, List.map_snd_zip _ _ (by simp)]
  have hvals : ((get_class_labels data).map Prod.snd).Nodup := by
    rw [hvals_eq]
    exact List.nodup_range _
  refine ⟨?_, ?_, ?_, hvals_eq⟩
  · intro j hj
    rw [dictGet?_eq_some_iff _ _ _ hkeys, hctx]
    have hjz : j < (data.labels.zip (List.range data.labels.length)).length := by
      rw [List.length_zip]
      simp
      omega
    have hget : (data.labels.zip (List.range data.labels.length))[j] =
        (data.labels[j], j) := by
      rw [List.getElem_zip]
      simp
    have hmem := List.getElem_mem hjz
    rw [hget] at hmem
    exact hmem
  · have hinv : build_idx_to_class (get_class_labels data) =
        (get_class_labels data).map (fun q => (q.2, q.1)) := by
      unfold build_idx_to_class
      rw [idxToClassLoop_eq _ [] hvals (by simp)]
      simp
    have hkeys2 : ((build_idx_to_class (get_class_labels data)).map
        Prod.fst).Nodup := by
      rw [hinv, List.map_map]
      exact hvals
    intro name idx
    rw [dictGet?_eq_some_iff _ _ _ hkeys,
        dictGet?_eq_some_iff _ _ _ hkeys2, hinv]
    constructor
    · intro hm
      exact List.mem_map.mpr ⟨(name, idx), hm, rfl⟩
    · intro hm
      obtain ⟨⟨a, b⟩, hab, heq⟩ := List.mem_map.mp hm
      simp only [Prod.mk.injEq] at heq
      obtain ⟨rfl, rfl⟩ := heq
      exact hab
  · intro d2 h2
    unfold get_class_labels
    rw [h2]

/-- Witness for C7: the three-entry vocabulary run, walk, jump receives
indices 0, 1, 2. -/
theorem get_class_labels_spec_witness :
    (get_class_labels egAnnData).map Prod.snd =
      List.range egAnnData.labels.length :=
  (get_class_labels_spec egAnnData (by decide)).2.2.2

theorem torchStack_uniform (l : List (Tensor Int)) (s : List Nat)
    (hne : l ≠ []) (hs : ∀ u ∈ l, u.shape = s) :
    ∃ T, torchStack l = .ok T ∧ T.shape = l.length :: s := by
  rcases l with _ | ⟨t, rest⟩
  · exact absurd rfl hne
  · have hall : rest.all (fun u => u.shape == t.shape) = true := by
      rw [List.all_eq_true]
      intro u hu
      have h1 : u.shape = s := hs u (List.mem_cons_of_mem _ hu)
      have h2 : t.shape = s := hs t (List.mem_cons_self _ _)
      simp [h1, h2]
    refine ⟨{ shape := (t :: rest).length :: t.shape,
              data := fun idx =>
                match idx with
                | [] => 0
                | i :: is => ((t :: rest).getD i t).data is }, ?_, ?_⟩
    · simp [torchStack, hall]
    · simp [hs t (List.mem_cons_self _ _)]

theorem zipWith_pair_fst {α β γ δ : Type} (f : α → γ) (g : β → δ) :
    ∀ (bs : List α) (ts : List β), bs.length = ts.length →
      (List.zipWith (fun b t => (f b, g t)) bs ts).map Prod.fst = bs.map f := by
  intro bs
  induction bs with
  | nil => intro ts _; simp
  | cons b bs ih =>
    intro ts h
    rcases ts with _ | ⟨t, ts⟩
    · simp at h
    · simp only [List.zipWith_cons_cons, List.map_cons]
      rw [ih ts (by simpa using h)]

theorem zipWith_pair_snd {α β γ δ : Type} (f : α → γ) (g : β → δ) :
    ∀ (bs : List α) (ts : List β), bs.length = ts.length →
      (List.zipWith (fun b t => (f b, g t)) bs ts).map Prod.snd = ts.map g := by
  intro bs
  induction bs with
  | nil =>
    intro ts h
    rcases ts with _ | ⟨t, ts⟩
    · simp
    · simp at h
  | cons b bs ih =>
    intro ts h
    rcases ts with _ | ⟨t, ts⟩
    · simp at h
    · simp only [List.zipWith_cons_cons, List.map_cons]
      rw [ih ts (by simpa using h)]

theorem flatMap_multi (bs : List (List (Tensor Int))) :
    (bs.map ClipEntry.multi).flatMap flattenClipEntry = bs.flatten := by
  induction bs with
  | nil => rfl
  | cons b bs ih =>
    simp only [List.map_cons, List.flatMap_cons, List.flatten_cons,
      flattenClipEntry, ih]

theorem flattenTargets_lists (ts : List (List PyTarget)) :
    flattenTargets (ts.map PyTarget.list) = .ok ts.flatten := by
  induction ts with
  | nil => rfl
  | cons t ts ih =>
    simp only [List.map_cons, flattenTargets, iterTarget, ih,
      List.flatten_cons]

theorem collateFinish_listed (clips : List (Tensor Int)) (hd : PyTarget)
    (rest : List PyTarget) (hhd : ∀ n, hd ≠ PyTarget.int n) (T : Tensor Int)
    (hT : torchStack clips = .ok T) :
    collateFinish clips (hd :: rest) = .ok (T, .listed (hd :: rest)) := by
  cases hd with
  | int n => exact absurd rfl (hhd n)
  | dict s => simp [collateFinish, hT]
  | str s => simp [collateFinish, hT]
  | list l => simp [collateFinish, hT]

theorem collate_fn_multi_head (b0 : List (Tensor Int)) (t0 : PyTarget)
    (rest : List (ClipEntry × PyTarget)) :
    collate_fn ((ClipEntry.multi b0, t0) :: rest) =
      match flattenTargets (((ClipEntry.multi b0, t0) :: rest).map
          (fun b => b.2)) with
      | .error e => .error e
      | .ok ft =>
        collateFinish ((((ClipEntry.multi b0, t0) :: rest).map
          (fun b => b.1)).flatMap flattenClipEntry) ft := rfl

/-- C9: collate_fn flattens multi-window batches by exactly one level,
concatenating all inner clips and all inner targets into flat lists in
matching order before stacking, so the batched clip tensor has leading
dimension equal to the total clip count; integer targets are stacked into
an integer tensor; non-integer (structured) targets are returned as a
plain ordered list. -/
theorem collate_fn_spec :
    (∀ (bs : List (List (Tensor Int))) (ts : List (List PyTarget))
        (s : List Nat),
        bs.length = ts.length → bs ≠ [] → bs.flatten ≠ [] →
        (∀ u ∈ bs.flatten, u.shape = s) →
        (∀ t ∈ ts.flatten, ∃ d, t = PyTarget.dict d) → ts.flatten ≠ [] →
        ∃ T, collate_fn (List.zipWith
            (fun b t => (ClipEntry.multi b, PyTarget.list t)) bs ts) =
            .ok (T, .listed ts.flatten) ∧
          T.shape = bs.flatten.length :: s) ∧
    (∀ c1 c2 : Tensor Int, c1.shape = c2.shape →
        ∃ T it, collate_fn [(ClipEntry.single c1, PyTarget.int 0),
            (ClipEntry.single c2, PyTarget.int 1)] =
            .ok (T, .tensor it) ∧
          T.shape = 2 :: c1.shape ∧ it.shape = [2] ∧
          it.data [0] = 0 ∧ it.data [1] = 1) ∧
    (∀ (c1 c2 : Tensor Int) (d1 d2 : Sample), c1.shape = c2.shape →
        ∃ T, collate_fn [(ClipEntry.single c1, PyTarget.dict d1),
            (ClipEntry.single c2, PyTarget.dict d2)] =
            .ok (T, .listed [PyTarget.dict d1, PyTarget.dict d2])) := by
  refine ⟨?_, ?_, ?_⟩
  · intro bs ts s hlen hbs hflat hshape hdict hts
    obtain ⟨T, hT, hTs⟩ := torchStack_uniform bs.flatten s hflat hshape
    refine ⟨T, ?_, hTs⟩
    rcases bs with _ | ⟨b0, bs'⟩
    · exact absurd rfl hbs
    rcases ts with _ | ⟨t0, ts'⟩
    · simp at hlen
    rw [List.zipWith_cons_cons, collate_fn_multi_head]
    have hmapsnd : (((ClipEntry.multi b0, PyTarget.list t0) ::
        List.zipWith (fun b t => (ClipEntry.multi b, PyTarget.list t))
          bs' ts').map (fun b => b.2)) = (t0 :: ts').map PyTarget.list := by
      simp only [List.map_cons]
      rw [zipWith_pair_snd ClipEntry.multi PyTarget.list bs' ts'
        (by simpa using hlen)]
    have hmapfst : (((ClipEntry.multi b0, PyTarget.list t0) ::
        List.zipWith (fun b t => (ClipEntry.multi b, PyTarget.list t))
          bs' ts').map (fun b => b.1)) = (b0 :: bs').map ClipEntry.multi := by
      simp only [List.map_cons]
      rw [zipWith_pair_fst ClipEntry.multi PyTarget.list bs' ts'
        (by simpa using hlen)]
    rw [hmapsnd, hmapfst, flattenTargets_lists, flatMap_multi]
    rcases hfl : (t0 :: ts').flatten with _ | ⟨hd, tl⟩
    · exact absurd hfl hts
    · have hmemhd : hd ∈ (t0 :: ts').flatten := by
        rw [hfl]
        exact List.mem_cons_self _ _
      obtain ⟨d, hdEq⟩ := hdict hd hmemhd
      subst hdEq
      exact collateFinish_listed (b0 :: bs').flatten (PyTarget.dict d) tl
        (fun n => by simp) T hT
  · intro c1 c2 hshape
    obtain ⟨T, hT, hTs⟩ := torchStack_uniform [c1, c2] c1.shape (by simp)
      (by intro u hu
          rcases List.mem_cons.mp hu with rfl | hu2
          · rfl
          · have hu3 : u = c2 := by simpa using hu2
            rw [hu3, hshape])
    refine ⟨T, { shape := [2],
                 data := fun idx => ([0, 1] : List Int).getD (idx.headD 0) 0 },
            ?_, by simpa using hTs, rfl, rfl, rfl⟩
    show collateFinish [c1, c2] [PyTarget.int 0, PyTarget.int 1] = _
    simp only [collateFinish]
    rw [hT]
    rfl
  · intro c1 c2 d1 d2 hshape
    obtain ⟨T, hT, hTs⟩ := torchStack_uniform [c1, c2] c1.shape (by simp)
      (by intro u hu
          rcases List.mem_cons.mp hu with rfl | hu2
          · rfl
          · have hu3 : u = c2 := by simpa using hu2
            rw [hu3, hshape])
    refine ⟨T, ?_⟩
    show collateFinish [c1, c2] [PyTarget.dict d1, PyTarget.dict d2] = _
    exact collateFinish_listed [c1, c2] (PyTarget.dict d1) [PyTarget.dict d2]
      (fun n => by simp) T hT

/-- Witness for C9: two multi-window samples with two unit clips each
collate to a batch tensor of leading dimension 4 with their four dict
targets listed in order; integer targets 0, 1 collate to the int tensor
with entries 0, 1. -/
theorem collate_fn_spec_witness :
    (∃ T, collate_fn (List.zipWith
        (fun b t => (ClipEntry.multi b, PyTarget.list t))
        [[egT, egT], [egT, egT]]
        [[PyTarget.dict sampleA, PyTarget.dict sampleA],
         [PyTarget.dict sampleA, PyTarget.dict sampleA]]) =
        .ok (T, .listed [PyTarget.dict sampleA, PyTarget.dict sampleA,
          PyTarget.dict sampleA, PyTarget.dict sampleA]) ∧
      T.shape = [4, 1, 1, 1]) ∧
    (∃ T it, collate_fn [(ClipEntry.single egT, PyTarget.int 0),
        (ClipEntry.single egT, PyTarget.int 1)] =
        .ok (T, .tensor it) ∧
      T.shape = 2 :: egT.shape ∧ it.shape = [2] ∧
      it.data [0] = 0 ∧ it.data [1] = 1) :=
  ⟨collate_fn_spec.1 [[egT, egT], [egT, egT]]
      [[PyTarget.dict sampleA, PyTarget.dict sampleA],
       [PyTarget.dict sampleA, PyTarget.dict sampleA]] [1, 1, 1]
      rfl (by simp) (by simp)
      (by intro u hu
          simp at hu
          subst hu
          rfl)
      (by intro t ht
          simp at ht
          subst ht
          exact ⟨sampleA, rfl⟩)
      (by simp),
   collate_fn_spec.2.1 egT egT rfl⟩

end VDH
